import Mathlib

/-!
Verification of the multi-provider model orchestration layer of the
claude-task-master repository.

The development shallowly embeds the JavaScript source files
`scripts/modules/models/model-processor.js`,
`scripts/modules/models/model-registry.js`,
`scripts/modules/models/claude-adapter.js`, the concatenated
`deepseek-adapter.js`, and the `ai.js` helpers (`callAIModel`,
`parseSubtasksFromText`).

Modelling conventions:
* JavaScript strings are `List Char` (abbreviated `JStr`); Lean string
  literals are converted with `.data`.
* JavaScript numbers are exact rationals (`Rat`).  For the quantities the
  claims touch (task counts, ids, the `0.8 * expectedCount` threshold for
  counts below 2^50) IEEE-754 double evaluation agrees exactly with the
  rational value, so no floating-point rounding is modelled.
* `JSON.parse` is modelled by a recursive-descent parser over the JSON
  grammar; fallible operations return `Option`/`Except`.
* Recursion that is unbounded in the source (the registry retrying
  selection) takes an explicit fuel argument; exhausting every fuel value
  models divergence of the JavaScript recursion.
-/

/-- JavaScript strings, modelled as lists of unicode characters. -/
abbrev JStr := List Char

/-- The whitespace characters recognised by both JavaScript
`String.prototype.trim` and the regex class `\s` (ASCII whitespace plus
the common Unicode space characters; exotic space code points that never
occur in the modelled texts are omitted). -/
def isJsWsChar (c : Char) : Bool :=
  c = ' ' || c = '\t' || c = '\n' || c = '\r' ||
  c = (Char.ofNat 11) || c = (Char.ofNat 12) ||
  c = (Char.ofNat 0xa0) || c = (Char.ofNat 0xfeff) ||
  c = (Char.ofNat 0x2028) || c = (Char.ofNat 0x2029)

/-- JavaScript `text.trim()`. -/
def trimJs (s : JStr) : JStr :=
  ((s.dropWhile isJsWsChar).reverse.dropWhile isJsWsChar).reverse

/-- JavaScript values produced by `JSON.parse`, plus `NaN` (which only
`parseInt` can produce).  Object fields are kept in insertion order and
are duplicate-free (the parser collapses duplicate keys the way
`JSON.parse` does, keeping the first position and the last value). -/
inductive Json where
  | jnull : Json
  | jbool : Bool → Json
  | jnum : Rat → Json
  | jnan : Json
  | jstr : JStr → Json
  | jarr : List Json → Json
  | jobj : List (JStr × Json) → Json

/-- JavaScript truthiness of a value.  Note that arrays and objects are
always truthy (`[]` and `\x7b\x7d` included), and `NaN`, `0`, `""`,
`null`, `false` are falsy. -/
def jsTruthy : Json → Bool
  | .jnull => false
  | .jbool b => b
  | .jnum q => !(q == 0)
  | .jnan => false
  | .jstr s => !s.isEmpty
  | .jarr _ => true
  | .jobj _ => true

/-- Property read `v.k`: `some` if the key is present on an object,
`none` for a missing key or a non-object (JavaScript `undefined`). -/
def jsGet (v : Json) (k : JStr) : Option Json :=
  match v with
  | .jobj fs => (fs.find? (fun p => p.1 = k)).map (fun p => p.2)
  | _ => none

/-- Truthiness of a possibly-missing property (`undefined` is falsy). -/
def jsTruthyO : Option Json → Bool
  | none => false
  | some v => jsTruthy v

/-- Set a field of an object field list: replace the value in place if
the key exists (keeping its position), append otherwise.  This is both
JavaScript property assignment and `JSON.parse`'s duplicate-key rule. -/
def insertField (k : JStr) (v : Json) : List (JStr × Json) → List (JStr × Json)
  | [] => [(k, v)]
  | (k', v') :: fs => if k' = k then (k, v) :: fs else (k', v') :: insertField k v fs

/-- JavaScript property assignment `obj[k] = v`.  On non-objects the
assignment is a silent no-op (sloppy-mode semantics for primitives;
array elements never receive named properties in the modelled flows). -/
def jobjSet (j : Json) (k : JStr) (v : Json) : Json :=
  match j with
  | .jobj fs => .jobj (insertField k v fs)
  | _ => j

/-- Numeric value of a list of decimal digits, most significant first. -/
def natOfDigits (ds : List Nat) : Nat :=
  ds.foldl (fun acc d => 10 * acc + d) 0

/-- Exact value of a JSON number literal: sign, integer digits,
fraction digits, optional signed exponent digits. -/
def numValue (neg : Bool) (ip fp : List Nat) (ex : Option (Bool × List Nat)) : Rat :=
  let mant : Int := Int.ofNat (natOfDigits ip * 10 ^ fp.length + natOfDigits fp)
  let mant : Int := if neg then -mant else mant
  let e : Int :=
    match ex with
    | none => 0
    | some (eneg, eds) =>
      if eneg then -(Int.ofNat (natOfDigits eds)) else Int.ofNat (natOfDigits eds)
  let t : Int := e - Int.ofNat fp.length
  if 0 ≤ t then ((mant * 10 ^ t.toNat : Int) : Rat)
  else mkRat mant (10 ^ (-t).toNat)

/-- Prepend an object member parsed before the (already collapsed)
members `fs`: `JSON.parse` keeps the first occurrence's position and the
last occurrence's value for duplicate keys, so a duplicate later in `fs`
moves here with its (later) value. -/
def addMember (k : JStr) (v : Json) (fs : List (JStr × Json)) : List (JStr × Json) :=
  match fs.find? (fun p => p.1 = k) with
  | some p => (k, p.2) :: fs.eraseP (fun q => decide (q.1 = k))
  | none => (k, v) :: fs

/-- Digit value of a decimal digit character. -/
def digitVal (c : Char) : Nat := c.toNat - '0'.toNat

/-- Drop `p` from the front of `cs` if it is a prefix, else `none`. -/
def dropPfx (p cs : JStr) : Option JStr :=
  match p, cs with
  | [], rest => some rest
  | _ :: _, [] => none
  | a :: p', c :: cs' => if a = c then dropPfx p' cs' else none

/-- Value of a hexadecimal digit character, if it is one. -/
def hexVal (c : Char) : Option Nat :=
  if '0' ≤ c ∧ c ≤ '9' then some (c.toNat - '0'.toNat)
  else if 'a' ≤ c ∧ c ≤ 'f' then some (c.toNat - 'a'.toNat + 10)
  else if 'A' ≤ c ∧ c ≤ 'F' then some (c.toNat - 'A'.toNat + 10)
  else none

/-- Body of a JSON string after the opening quote: returns the decoded
characters and the remainder after the closing quote.  Handles the JSON
escape sequences; raw control characters are rejected as `JSON.parse`
does.  (A `\u` escape denoting a lone UTF-16 surrogate is mapped to
`Char.ofNat`'s fallback; no modelled text contains surrogates.) -/
def parseStringBody : JStr → Option (JStr × JStr)
  | [] => none
  | c :: rest =>
    if c = '"' then some ([], rest)
    else if c = '\\' then
      match rest with
      | [] => none
      | e :: rest2 =>
        if e = 'u' then
          match rest2 with
          | h1 :: h2 :: h3 :: h4 :: rest3 =>
            match hexVal h1, hexVal h2, hexVal h3, hexVal h4 with
            | some a, some b, some c', some d =>
              (parseStringBody rest3).map
                (fun r => (Char.ofNat (((a * 16 + b) * 16 + c') * 16 + d) :: r.1, r.2))
            | _, _, _, _ => none
          | _ => none
        else
          let dec : Option Char :=
            if e = '"' then some '"'
            else if e = '\\' then some '\\'
            else if e = '/' then some '/'
            else if e = 'b' then some (Char.ofNat 8)
            else if e = 'f' then some (Char.ofNat 12)
            else if e = 'n' then some '\n'
            else if e = 'r' then some '\r'
            else if e = 't' then some '\t'
            else none
          match dec with
          | some d => (parseStringBody rest2).map (fun r => (d :: r.1, r.2))
          | none => none
    else if c.toNat < 32 then none
    else (parseStringBody rest).map (fun r => (c :: r.1, r.2))

/-- Parse the digits of a JSON number starting at `cs` (sign already
consumed): integer part per the JSON grammar (`0` or a nonzero-led digit
run), optional fraction, optional exponent. -/
def parseNumTail (cs : JStr) : Option (List Nat × List Nat × Option (Bool × List Nat) × JStr) :=
  let ipRaw := cs.takeWhile Char.isDigit
  let rest0 := cs.dropWhile Char.isDigit
  -- JSON forbids leading zeros: "0" is fine, "0d..." is not a valid int part.
  if ipRaw.isEmpty then none
  else if ipRaw.head? = some '0' ∧ ipRaw.length ≠ 1 then none
  else
    let ip := ipRaw.map digitVal
    let (fp, rest1) :=
      match rest0 with
      | '.' :: r =>
        (((r.takeWhile Char.isDigit).map digitVal), r.dropWhile Char.isDigit)
      | _ => ([], rest0)
    -- a '.' must be followed by at least one digit
    if rest0.head? = some '.' ∧ fp.isEmpty then none
    else
      match rest1 with
      | 'e' :: r | 'E' :: r =>
        let (eneg, r2) :=
          match r with
          | '-' :: r' => (true, r')
          | '+' :: r' => (false, r')
          | _ => (false, r)
        let eds := r2.takeWhile Char.isDigit
        if eds.isEmpty then none
        else some (ip, fp, some (eneg, eds.map digitVal), r2.dropWhile Char.isDigit)
      | _ => some (ip, fp, none, rest1)

/-- Parse a JSON number (with optional leading minus). -/
def parseNumber (cs : JStr) : Option (Json × JStr) :=
  let (neg, cs1) := match cs with
    | '-' :: r => (true, r)
    | _ => (false, cs)
  match parseNumTail cs1 with
  | some (ip, fp, ex, rest) => some (.jnum (numValue neg ip fp ex), rest)
  | none => none

mutual

/-- Recursive-descent parser for one JSON value (model of the grammar
accepted by `JSON.parse`); leading whitespace is skipped, the remainder
after the value is returned.  `fuel` only bounds recursion depth; the
wrapper `parseJson` supplies enough fuel for any input. -/
def parseValue : Nat → JStr → Option (Json × JStr)
  | 0, _ => none
  | fuel + 1, cs =>
    match cs.dropWhile isJsWsChar with
    | [] => none
    | c :: rest =>
      if c = 'n' then (dropPfx "ull".data rest).map (fun r => (.jnull, r))
      else if c = 't' then (dropPfx "rue".data rest).map (fun r => (.jbool true, r))
      else if c = 'f' then (dropPfx "alse".data rest).map (fun r => (.jbool false, r))
      else if c = '"' then (parseStringBody rest).map (fun r => (.jstr r.1, r.2))
      else if c = '[' then
        match rest.dropWhile isJsWsChar with
        | ']' :: r => some (.jarr [], r)
        | r => (parseItems fuel r).map (fun p => (.jarr p.1, p.2))
      else if c = '\x7b' then
        match rest.dropWhile isJsWsChar with
        | '\x7d' :: r => some (.jobj [], r)
        | r => (parseMembers fuel r).map (fun p => (.jobj p.1, p.2))
      else if c = '-' ∨ c.isDigit then parseNumber (c :: rest)
      else none

/-- Parse the (non-empty) comma-separated element list of a JSON array,
including the closing bracket. -/
def parseItems : Nat → JStr → Option (List Json × JStr)
  | 0, _ => none
  | fuel + 1, cs =>
    match parseValue fuel cs with
    | none => none
    | some (v, rest) =>
      match rest.dropWhile isJsWsChar with
      | ',' :: r => (parseItems fuel r).map (fun p => (v :: p.1, p.2))
      | ']' :: r => some ([v], r)
      | _ => none

/-- Parse the (non-empty) member list of a JSON object, including the
closing brace; duplicate keys are collapsed as `JSON.parse` does. -/
def parseMembers : Nat → JStr → Option (List (JStr × Json) × JStr)
  | 0, _ => none
  | fuel + 1, cs =>
    match cs.dropWhile isJsWsChar with
    | '"' :: rest =>
      match parseStringBody rest with
      | none => none
      | some (key, rest1) =>
        match rest1.dropWhile isJsWsChar with
        | ':' :: rest2 =>
          match parseValue fuel rest2 with
          | none => none
          | some (v, rest3) =>
            match rest3.dropWhile isJsWsChar with
            | ',' :: r => (parseMembers fuel r).map (fun p => (addMember key v p.1, p.2))
            | '\x7d' :: r => some ([(key, v)], r)
            | _ => none
        | _ => none
    | _ => none

end

/-- Model of `JSON.parse(s)`: parses one JSON value and requires that
only whitespace follows; `none` is a thrown `SyntaxError`. -/
def parseJson (s : JStr) : Option Json :=
  match parseValue (2 * s.length + 2) s with
  | some (v, rest) => if (rest.dropWhile isJsWsChar).isEmpty then some v else none
  | none => none

/-! ## The fenced/brace JSON scan of `extractTasksJson`

`model-processor.js` scans the raw text with the global regex

  (three backticks)(?:json)?\s*((open brace)[\s\S]*?(close brace))\s*(three backticks)
  |((open brace)[\s\S]*(close brace))

via `matchAll`.  The backtracking behaviour of this particular pattern is
deterministic and is encoded directly:

* alternative 1 can only start at a backtick, alternative 2 only at an
  opening brace, so at each scan position at most one alternative applies
  and the regex engine's leftmost-first rule reduces to a left-to-right
  character scan;
* after the opening backticks, `(?:json)?` commits to consuming `json`
  whenever it is literally present (if the continuation then fails, the
  empty option also fails, because the `j` is neither whitespace nor an
  opening brace);
* the lazy group `[\s\S]*?` ends at the first closing brace that is
  followed by whitespace and closing backticks (`\s*` before the closing
  fence cannot backtrack past non-whitespace);
* the greedy `[\s\S]*` of alternative 2 ends at the last closing brace of
  the remaining text;
* `matchAll` resumes scanning right after each match.
-/

/-- Three backticks, the code-fence delimiter of the scan regex. -/
def ticks : JStr := [Char.ofNat 96, Char.ofNat 96, Char.ofNat 96]

/-- After a candidate closing brace of the lazy fenced group: `\s*`
followed by the closing fence, returning the remainder after it. -/
def closeFence (cs : JStr) : Option JStr :=
  dropPfx ticks (cs.dropWhile isJsWsChar)

/-- Scan the lazy group body `[\s\S]*?` of alternative 1: `acc` holds the
group content consumed so far (after the opening brace).  The group ends
at the first closing brace whose continuation `\s*`+fence matches;
a closing brace that is not followed by a fence becomes group content. -/
def fencedBody (acc : JStr) : JStr → Option (JStr × JStr)
  | [] => none
  | c :: rest =>
    if c = '\x7d' then
      match closeFence rest with
      | some rem => some ('\x7b' :: (acc ++ ['\x7d']), rem)
      | none => fencedBody (acc ++ [c]) rest
  else fencedBody (acc ++ [c]) rest

/-- Alternative 1 after the opening backticks and optional `json`
keyword: `\s*` then the lazy brace group. -/
def fencedAfterTicks (cs : JStr) : Option (JStr × JStr) :=
  match cs.dropWhile isJsWsChar with
  | '\x7b' :: body => fencedBody [] body
  | _ => none

/-- Try alternative 1 (a fenced code block) at the current position:
returns the captured group (braces included) and the remainder after the
whole match. -/
def tryFenced (cs : JStr) : Option (JStr × JStr) :=
  match dropPfx ticks cs with
  | none => none
  | some cs1 =>
    match dropPfx "json".data cs1 with
    | some cs2 => fencedAfterTicks cs2
    | none => fencedAfterTicks cs1

/-- Split `cs` at its last closing brace: the prefix up to and including
that brace, and the rest. -/
def splitAtLastClose : JStr → Option (JStr × JStr)
  | [] => none
  | c :: rest =>
    match splitAtLastClose rest with
    | some (pre, post) => some (c :: pre, post)
    | none => if c = '\x7d' then some ([c], rest) else none

/-- Try alternative 2 (a greedy brace-delimited span) at the current
position: from an opening brace to the last closing brace of the text. -/
def tryBrace (cs : JStr) : Option (JStr × JStr) :=
  match cs with
  | '\x7b' :: rest =>
    match splitAtLastClose rest with
    | some (pre, post) => some ('\x7b' :: pre, post)
    | none => none
  | _ => none

/-- The `matchAll` loop: captured JSON candidate substrings in textual
order.  `fuel` bounds the scan; every recursive call shrinks the text,
so `length + 1` (supplied by `scanAll`) is always sufficient. -/
def scanMatches : Nat → JStr → List JStr
  | 0, _ => []
  | _ + 1, [] => []
  | fuel + 1, c :: rest =>
    if c = Char.ofNat 96 then
      match tryFenced (c :: rest) with
      | some (cap, rem) => cap :: scanMatches fuel rem
      | none => scanMatches fuel rest
    else if c = '\x7b' then
      match tryBrace (c :: rest) with
      | some (cap, rem) => cap :: scanMatches fuel rem
      | none => scanMatches fuel rest
    else scanMatches fuel rest

/-- All regex matches of the scan pattern over `text`, in textual order. -/
def scanAll (text : JStr) : List JStr :=
  scanMatches (text.length + 1) text

/-- The acceptance test `parsed && parsed.tasks` applied to a parsed
candidate. -/
def hasTasksProp (v : Json) : Bool :=
  jsTruthy v && jsTruthyO (jsGet v "tasks".data)

/-- The body of the `for (const match of matches)` loop of
`extractTasksJson`: parse each candidate (trimmed), return the first
whose parsed form is truthy and has a truthy `tasks` property, skipping
candidates that fail to parse. -/
def scanLoop : List JStr → Option Json
  | [] => none
  | m :: ms =>
    match parseJson (trimJs m) with
    | some v => if hasTasksProp v then some v else scanLoop ms
    | none => scanLoop ms

/-- Model of `extractTasksJson(text)` from `model-processor.js`: first
`JSON.parse(text.trim())` (returned when truthy with a truthy `tasks`
property), otherwise the regex scan over the original text. -/
def extractTasksJson (text : JStr) : Option Json :=
  match parseJson (trimJs text) with
  | some v => if hasTasksProp v then some v else scanLoop (scanAll text)
  | none => scanLoop (scanAll text)

/-- One candidate of the specification's candidate list: its parse, kept
when the parsed form contains a `tasks` collection. -/
def candAccept (c : JStr) : Option Json :=
  match parseJson c with
  | some v => if hasTasksProp v then some v else none
  | none => none

/-- Modelled from the spec's words for `extractPayload`: the whole text
first, then the fenced/brace candidates in textual order; the result is
the first candidate whose parsed form contains a `tasks` collection, and
`null` exactly when no candidate does. -/
def specExtractPayload (text : JStr) : Option Json :=
  (trimJs text :: (scanAll text).map trimJs).findSome? candAccept

/-! ## `validateTasks` and `processModelResponse` -/

/-- The `for (const task of tasks.tasks)` loop of `validateTasks`:
return `false` at the first record with a falsy `id`, `title` or
`description`, `true` after the last.  Reading `task.id` on a `null`
element throws a `TypeError` (`Except.error`); on every other value the
property reads yield `undefined` at worst and the loop returns. -/
def validateLoop : List Json → Except JStr Bool
  | [] => .ok true
  | t :: ts =>
    match t with
    | .jnull => .error "TypeError".data
    | _ =>
      if jsTruthyO (jsGet t "id".data) && jsTruthyO (jsGet t "title".data) &&
         jsTruthyO (jsGet t "description".data) then validateLoop ts
      else .ok false

/-- Model of `validateTasks(tasks, expectedCount)` from
`model-processor.js`: `.ok` is the function's boolean return, `.error`
the `TypeError` thrown when a `null` element reaches the field loop.
The JavaScript comparison `tasks.tasks.length < expectedCount * 0.8` on
IEEE doubles agrees with the exact comparison
`5 * length < 4 * expectedCount` for all counts below 2^50 (multiples
of five multiply exactly, and otherwise the exact value is at least 1/5
away from any integer), so the exact form is used. -/
def validateTasks (tasks : Json) (expectedCount : Nat) : Except JStr Bool :=
  if !(jsTruthy tasks) then .ok false
  else
    match jsGet tasks "tasks".data with
    | some (.jarr list) =>
      if 5 * list.length < 4 * expectedCount then .ok false
      else validateLoop list
    | _ => .ok false

/-- Modelled from the spec's words for `validate(payload, N)`: the
payload holds a `tasks` collection, its length is at least `0.8 * N`,
and every record has truthy `id`, `title` and `description` fields
(presence in the JavaScript-truthiness sense; the falsy-but-present
nuance is claim C10's subject). -/
def specValidate (payload : Json) (expectedCount : Nat) : Prop :=
  jsTruthy payload = true ∧
  ∃ ts : List Json, jsGet payload "tasks".data = some (.jarr ts) ∧
    (0.8 : Rat) * expectedCount ≤ ts.length ∧
    ∀ t ∈ ts, jsTruthyO (jsGet t "id".data) = true ∧
      jsTruthyO (jsGet t "title".data) = true ∧
      jsTruthyO (jsGet t "description".data) = true

/-- The fields of the adapter result that `processModelResponse` reads. -/
structure ModelResult where
  textContent : JStr
  retryCount : Nat

/-- Outcome of `processModelResponse`: the accepted batch, a retry
signal, one of the two errors the function itself throws, or an
exception escaping from a callee (the `TypeError` of `validateTasks` on
a `null` record — the function has no try/catch, so it propagates). -/
inductive ProcessOutcome where
  | accepted : Json → ProcessOutcome
  | retry : Nat → ProcessOutcome
  | extractionError : ProcessOutcome
  | validationError : ProcessOutcome
  | uncaught : JStr → ProcessOutcome

/-- Model of `processModelResponse(modelResult, options)` from
`model-processor.js` (`numTasks` is the caller-supplied expected count,
defaulting to 10 at the call boundary). -/
def processModelResponse (mr : ModelResult) (numTasks : Nat) : ProcessOutcome :=
  match extractTasksJson mr.textContent with
  | none => .extractionError
  | some tasks =>
    match validateTasks tasks numTasks with
    | .error msg => .uncaught msg
    | .ok true => .accepted tasks
    | .ok false =>
      if mr.retryCount < 3 then .retry (mr.retryCount + 1)
      else .validationError

/-- Terminal outcome of the `callAIModel` orchestration.  `crashed` is
the generic error its catch block rethrows around an exception that is
neither an adapter error nor an HTTP-status error (message text beyond
the fixed prefix abstracted). -/
inductive AIOutcome where
  | tasks : Json → AIOutcome
  | extractionFailed : AIOutcome
  | validationFailed : AIOutcome
  | crashed : JStr → AIOutcome

/-- Model of the orchestration loop of `callAIModel` (`ai.js`): call the
adapter (here `respond rc` is the text the adapter returns at retry
count `rc`), process the response, and on a retry signal re-invoke with
the incremented retry count.  `fuel` bounds the recursion; `none` models
nontermination.  Adapter-call failures propagate as exceptions in the
source and are orthogonal to the modelled flow. -/
def callAIModel : Nat → (Nat → JStr) → Nat → Nat → Option AIOutcome
  | 0, _, _, _ => none
  | fuel + 1, respond, numTasks, rc =>
    match processModelResponse ⟨respond rc, rc⟩ numTasks with
    | .accepted t => some (.tasks t)
    | .extractionError => some .extractionFailed
    | .validationError => some .validationFailed
    | .uncaught msg => some (.crashed ("生成任务失败: ".data ++ msg))
    | .retry rc' => callAIModel fuel respond numTasks rc'

/-! ## `parseSubtasksFromText` (`ai.js`)

The only normalization of task records in the repository lives here:
string dependencies are coerced with `parseInt(dep, 10)`, a missing or
non-array `dependencies` becomes `[]`, and `status` is forced to
`'pending'`. -/

/-- Index of the first occurrence of `c` (JavaScript `indexOf`,
with `none` for `-1`). -/
def idxOfChar (c : Char) : JStr → Option Nat
  | [] => none
  | a :: rest => if a = c then some 0 else (idxOfChar c rest).map (· + 1)

/-- Index of the last occurrence of `c` (JavaScript `lastIndexOf`). -/
def lastIdxOfChar (c : Char) (s : JStr) : Option Nat :=
  (idxOfChar c s.reverse).map (fun k => s.length - 1 - k)

/-- Model of `parseInt(s, 10)`: skip leading whitespace, optional sign,
then the longest prefix of decimal digits; no digits yields `NaN`. -/
def jsParseInt (s : JStr) : Json :=
  let t := s.dropWhile isJsWsChar
  let (neg, t1) :=
    match t with
    | '-' :: r => (true, r)
    | '+' :: r => (false, r)
    | _ => (false, t)
  let ds := t1.takeWhile Char.isDigit
  if ds.isEmpty then .jnan
  else
    let n : Int := Int.ofNat (natOfDigits (ds.map digitVal))
    .jnum ((if neg then -n else n : Int) : Rat)

/-- Dependency coercion of `parseSubtasksFromText`:
`typeof dep === 'string' ? parseInt(dep, 10) : dep`. -/
def coerceDep (d : Json) : Json :=
  match d with
  | .jstr s => jsParseInt s
  | _ => d

/-- The id-preservation test of `parseSubtasksFromText`: the record's
`id` is kept only when it is truthy and strictly equals
`startId + index` (`!subtask.id || subtask.id !== startId + index`
triggers the correction; `===` between a number and a non-number is
always false). -/
def keepId (st : Json) (newId : Rat) : Bool :=
  match jsGet st "id".data with
  | some (.jnum q) => jsTruthy (.jnum q) && q == newId
  | _ => false

/-- The value assigned to `subtask.dependencies`: the element-wise
coercion when the field is a (truthy) array, the empty array otherwise
(`if (subtask.dependencies && Array.isArray(subtask.dependencies))`). -/
def depsValue (st1 : Json) : Json :=
  match jsGet st1 "dependencies".data with
  | some (.jarr ds) => .jarr (ds.map coerceDep)
  | _ => .jarr []

/-- The final `parentTaskId` assignment, performed only when the
argument is truthy (`if (parentTaskId)`). -/
def applyParent (pt : Option Nat) (st3 : Json) : Json :=
  match pt with
  | some p => if p = 0 then st3 else jobjSet st3 "parentTaskId".data (.jnum p)
  | none => st3

/-- The per-record normalization body of the `subtasks.map` in
`parseSubtasksFromText`: correct the id to `startId + index` unless it
already strictly equals it, coerce string dependencies and default
missing or non-array dependencies to `[]`, force `status` to
`'pending'`, and attach `parentTaskId` when that argument is truthy.
Reading a property of `null` throws a `TypeError`, and `ai.js` is an ES
module (strict mode), so the `subtask.id = ...` write on any other
primitive also throws one (`Except.error`).  An array element is an
object: the writes attach named properties to it, invisible to JSON
serialization; the model returns it unchanged (no claim depends on such
records). -/
def normalizeSubtask (startId : Nat) (parentTaskId : Option Nat) (index : Nat)
    (st : Json) : Except JStr Json :=
  match st with
  | .jnull => .error "TypeError".data
  | .jobj _ =>
    let newId : Rat := ((startId + index : Nat) : Rat)
    -- keep the id only when `subtask.id` is truthy and `=== startId + index`
    let st1 := if keepId st newId then st else jobjSet st "id".data (.jnum newId)
    let st2 := jobjSet st1 "dependencies".data (depsValue st1)
    let st3 := jobjSet st2 "status".data (.jstr "pending".data)
    .ok (applyParent parentTaskId st3)
  | .jarr _ => .ok st
  | _ => .error "TypeError".data

/-- The indexed `map` over the parsed subtask array. -/
def normalizeAll (startId : Nat) (pt : Option Nat) : Nat → List Json → Except JStr (List Json)
  | _, [] => .ok []
  | i, t :: ts => do
    let t' ← normalizeSubtask startId pt i t
    let ts' ← normalizeAll startId pt (i + 1) ts
    .ok (t' :: ts')

/-- Model of `parseSubtasksFromText(text, startId, expectedCount,
parentTaskId)` from `ai.js`.  `expectedCount` only feeds a warning log
and does not affect the result; error messages are modelled by their
fixed prefixes. -/
def parseSubtasksFromText (text : JStr) (startId0 : Nat) (parentTaskId : Option Nat) :
    Except JStr (List Json) :=
  let startId := if startId0 = 0 then 1 else startId0
  if (trimJs text).isEmpty then .error "Empty text provided, cannot parse subtasks".data
  else
    match idxOfChar '[' text, lastIdxOfChar ']' text with
    | some i, some j =>
      if j < i then .error "Could not locate valid JSON array in the response".data
      else
        match parseJson ((text.drop i).take (j + 1 - i)) with
        | none => .error "Failed to parse JSON".data
        | some (.jarr subtasks) => normalizeAll startId parentTaskId 0 subtasks
        | some _ => .error "Parsed content is not an array".data
    | _, _ => .error "Could not locate valid JSON array in the response".data

/-! ## The provider registry (`model-registry.js`) -/

/-- Opaque session token handed to `isAvailable`/`initialize`. -/
abbrev Session := JStr

/-- Opaque vendor client constructed by `initialize`. -/
abbrev Client := JStr

/-- The options object passed through `selectBestModel`.  `_excludeTypes`
is the exclusion list the recursion appends to. -/
structure SelectOptions where
  claudeOverloaded : Bool
  requiresResearch : Bool
  excludeTypes : List JStr

/-- A registered model adapter, reduced to the capabilities
`selectBestModel` consults.  `init` models the adapter's `initialize`
method (a Lean keyword) and returns `none` when the JavaScript
constructor throws. -/
structure Adapter where
  type : JStr
  isAvailable : Session → Bool
  getPriority : SelectOptions → Int
  init : Session → Option Client

/-- Stable insertion of `a` into a list already sorted by priority
descending: `a` goes before the first element of strictly smaller
priority, i.e. after every element of priority ≥ its own — exactly the
order produced by the (specified-stable) JavaScript
`sort((a, b) => b.getPriority(options) - a.getPriority(options))`. -/
def insertByPriorityDesc (opts : SelectOptions) (a : Adapter) :
    List Adapter → List Adapter
  | [] => [a]
  | b :: bs =>
    if b.getPriority opts ≤ a.getPriority opts then a :: b :: bs
    else b :: insertByPriorityDesc opts a bs

/-- Stable sort by priority descending (insertion sort; a stable sort's
output is uniquely determined, so this equals the V8 TimSort result). -/
def sortByPriorityDesc (opts : SelectOptions) : List Adapter → List Adapter
  | [] => []
  | a :: as => insertByPriorityDesc opts a (sortByPriorityDesc opts as)

/-- The `availableAdapters` list of `selectBestModel`: registered
adapters (in registration order, as `Map` values preserve insertion
order) filtered by `isAvailable` and sorted by priority descending.
Note that the filter does not consult `opts.excludeTypes`. -/
def availableSorted (adapters : List Adapter) (session : Session)
    (opts : SelectOptions) : List Adapter :=
  sortByPriorityDesc opts (adapters.filter (fun a => a.isAvailable session))

/-- Outcome of `selectBestModel`: a selected adapter/client pair, one of
the two thrown errors, or divergence of the JavaScript recursion
(modelled by exhausting every fuel value). -/
inductive SelectOutcome where
  | selected : Adapter → Client → SelectOutcome
  | noModels : SelectOutcome
  | initFailedAll : SelectOutcome
  | diverged : SelectOutcome

/-- Model of `ModelRegistry.selectBestModel(session, options)`: filter by
availability, sort by priority, try `initialize` on the top candidate;
on failure, if more than one adapter is available, recurse with the
failed adapter's type appended to `options._excludeTypes` (which nothing
reads), else throw. -/
def selectBestModel : Nat → List Adapter → Session → SelectOptions → SelectOutcome
  | 0, _, _, _ => .diverged
  | fuel + 1, adapters, session, opts =>
    match availableSorted adapters session opts with
    | [] => .noModels
    | sel :: rest =>
      match sel.init session with
      | some client => .selected sel client
      | none =>
        if rest.isEmpty then .initFailedAll
        else
          selectBestModel fuel adapters session
            ⟨opts.claudeOverloaded, opts.requiresResearch, opts.excludeTypes ++ [sel.type]⟩

/-- Modelled from the spec's words for the selection order: the adapter
of maximal `getPriority`, ties resolved in favour of the earliest
registered adapter. -/
def specSelect (opts : SelectOptions) : List Adapter → Option Adapter
  | [] => none
  | a :: as =>
    match specSelect opts as with
    | none => some a
    | some b => if a.getPriority opts < b.getPriority opts then some b else some a

/-! ## The vendor adapters (`claude-adapter.js`, `deepseek-adapter.js`)

Both adapters share the same retry skeleton in `callModel`: accumulate
the stream on success, and on a vendor error retry with `retryCount + 1`
while `retryCount < 3`, otherwise throw the classified message. -/

/-- Lower-casing for the `includes('timeout')` / `includes('network')`
checks (ASCII-accurate model of `toLowerCase`). -/
def lowerJs (s : JStr) : JStr := s.map Char.toLower

/-- JavaScript `hay.includes(needle)`. -/
def containsSub (needle : JStr) : JStr → Bool
  | [] => needle.isEmpty
  | c :: rest => (dropPfx needle (c :: rest)).isSome || containsSub needle rest

/-- A vendor error as `handleError` discriminates it: a structured API
error (`error.type === 'error' && error.error`, carrying
`error.error.type` and `error.error.message`) or a plain error with only
a message. -/
inductive ClaudeError where
  | api : JStr → JStr → ClaudeError
  | plain : JStr → ClaudeError

/-- Model of `ClaudeAdapter.handleError`. -/
def claudeHandleError : ClaudeError → JStr
  | .api t m =>
    if t = "overloaded_error".data then "Claude当前需求量大，处于过载状态。请稍等几分钟后重试。".data
    else if t = "rate_limit_error".data then "您已超出速率限制。请等待几分钟后再发送请求。".data
    else if t = "invalid_request_error".data then "请求格式有问题。如果这个问题持续存在，请报告为bug。".data
    else "Claude API错误: ".data ++ m
  | .plain m =>
    if containsSub "timeout".data (lowerJs m) then "Claude请求超时。请重试。".data
    else if containsSub "network".data (lowerJs m) then "连接Claude时出现网络错误。请检查您的网络连接并重试。".data
    else "与Claude通信时出错: ".data ++ m

/-- A DeepSeek vendor error: structured (`error.response.data.error`
with its `type` and `message`) or plain. -/
inductive DeepSeekError where
  | api : JStr → JStr → DeepSeekError
  | plain : JStr → DeepSeekError

/-- Model of `DeepSeekAdapter.handleError` (`apiError.message || '未知错误'`
reads an empty message as the fallback). -/
def deepseekHandleError : DeepSeekError → JStr
  | .api t m =>
    if t = "server_error".data then "DeepSeek服务器错误，请稍后重试。".data
    else if t = "rate_limit_exceeded".data then "已超出DeepSeek API速率限制，请稍后重试。".data
    else "DeepSeek API错误: ".data ++ (if m.isEmpty then "未知错误".data else m)
  | .plain m =>
    if containsSub "timeout".data (lowerJs m) then "DeepSeek API请求超时，请重试。".data
    else if containsSub "network".data (lowerJs m) then "连接DeepSeek API时出现网络错误，请检查网络连接并重试。".data
    else "与DeepSeek通信时出错: ".data ++ m

/-- A Claude streaming event: its `type` and, when present,
`chunk.delta.text`. -/
structure ClaudeChunk where
  ctype : JStr
  deltaText : Option JStr

/-- One iteration of the Claude accumulation loop: append
`chunk.delta?.text || ''` when the event is a `content_block_delta` and
the text is non-empty. -/
def claudeStep (acc : JStr) (c : ClaudeChunk) : JStr :=
  if c.ctype = "content_block_delta".data then
    let t := c.deltaText.getD []
    if t.isEmpty then acc else acc ++ t
  else acc

/-- The Claude accumulation loop over the streamed events. -/
def accumulateClaudeChunks (chunks : List ClaudeChunk) : JStr :=
  chunks.foldl claudeStep []

/-- A DeepSeek streaming event, reduced to
`chunk.choices[0]?.delta?.content`. -/
structure DeepSeekChunk where
  content : Option JStr

/-- One iteration of the DeepSeek accumulation loop. -/
def deepseekStep (acc : JStr) (c : DeepSeekChunk) : JStr :=
  let t := c.content.getD []
  if t.isEmpty then acc else acc ++ t

/-- The DeepSeek accumulation loop over the streamed events. -/
def accumulateDeepSeekChunks (chunks : List DeepSeekChunk) : JStr :=
  chunks.foldl deepseekStep []

/-- The fields of the `callModel` result the claims are about (the
source also passes `prdContent`, `prdPath` and `options` through
unchanged). -/
structure CallResult where
  textContent : JStr
  retryCount : Nat

/-- Model of `ClaudeAdapter.callModel`: `attempt rc` is the outcome of
the vendor streaming request issued with `params.retryCount = rc` (each
recursive call issues a fresh request). -/
def claudeCallModel (attempt : Nat → Except ClaudeError (List ClaudeChunk))
    (rc : Nat) : Except JStr CallResult :=
  match attempt rc with
  | .ok chunks => .ok ⟨accumulateClaudeChunks chunks, rc⟩
  | .error e =>
    if h : rc < 3 then claudeCallModel attempt (rc + 1)
    else .error (claudeHandleError e)
termination_by 4 - rc
decreasing_by omega

/-- Model of `DeepSeekAdapter.callModel` (same retry skeleton). -/
def deepseekCallModel (attempt : Nat → Except DeepSeekError (List DeepSeekChunk))
    (rc : Nat) : Except JStr CallResult :=
  match attempt rc with
  | .ok chunks => .ok ⟨accumulateDeepSeekChunks chunks, rc⟩
  | .error e =>
    if h : rc < 3 then deepseekCallModel attempt (rc + 1)
    else .error (deepseekHandleError e)
termination_by 4 - rc
decreasing_by omega

/-- Instrumentation of the shared retry skeleton: the number of vendor
requests a `callModel` invocation starting at retry count `rc` issues,
given which attempts fail. -/
def callAttempts (fails : Nat → Bool) (rc : Nat) : Nat :=
  if fails rc then
    if h : rc < 3 then 1 + callAttempts fails (rc + 1) else 1
  else 1
termination_by 4 - rc
decreasing_by omega

/-- Whether a Claude vendor attempt fails. -/
def claudeFails (attempt : Nat → Except ClaudeError (List ClaudeChunk)) (n : Nat) : Bool :=
  match attempt n with
  | .error _ => true
  | .ok _ => false

/-! ## Concrete fixtures used by the claim theorems and witnesses -/

/-- A Claude-like adapter that is available and initializes
successfully (priority 100, as `claude-adapter.js` returns for the
default `LLM_PROVIDER` with no overload). -/
def fixClaudeOk : Adapter :=
  ⟨"claude".data, fun _ => true, fun _ => 100, fun _ => some "anthropic-client".data⟩

/-- A Claude-like adapter whose `initialize` always throws. -/
def fixClaudeBad : Adapter :=
  ⟨"claude".data, fun _ => true, fun _ => 100, fun _ => none⟩

/-- A DeepSeek-like adapter that is available and initializes
successfully (priority 50, as `deepseek-adapter.js` returns when Claude
is not overloaded). -/
def fixDeepseekOk : Adapter :=
  ⟨"deepseek".data, fun _ => true, fun _ => 50, fun _ => some "deepseek-client".data⟩

/-- Options whose exclusion list already contains `'claude'`, as the
recursion of `selectBestModel` produces after a failed Claude
initialization. -/
def fixExcludeClaude : SelectOptions := ⟨false, false, ["claude".data]⟩

/-- A vendor oracle that fails on every attempt with a plain error. -/
def fixAlwaysTimeout : Nat → Except ClaudeError (List ClaudeChunk) :=
  fun _ => .error (.plain "request timeout".data)

/-- A DeepSeek oracle that fails on every attempt. -/
def fixAlwaysNetworkErr : Nat → Except DeepSeekError (List DeepSeekChunk) :=
  fun _ => .error (.plain "network unreachable".data)

/-- A vendor oracle that is rate-limited twice and then streams two
`content_block_delta` fragments (with an unrelated event interleaved). -/
def fixRateLimitedTwice : Nat → Except ClaudeError (List ClaudeChunk) :=
  fun n =>
    if n = 0 then .error (.api "rate_limit_error".data "limited".data)
    else if n = 1 then .error (.api "rate_limit_error".data "limited again".data)
    else .ok [⟨"content_block_delta".data, some "hello ".data⟩,
              ⟨"message_delta".data, none⟩,
              ⟨"content_block_delta".data, some "world".data⟩]

/-- A task record with all three required fields truthy. -/
def fixTaskGood : Json :=
  .jobj [("id".data, .jnum 1), ("title".data, .jstr "t".data),
         ("description".data, .jstr "d".data)]

/-- A one-task payload that `validateTasks` accepts. -/
def fixPayloadGood : Json := .jobj [("tasks".data, .jarr [fixTaskGood])]

/-- A one-task payload whose record carries `id: 0` (present but falsy). -/
def fixPayloadIdZero : Json :=
  .jobj [("tasks".data, .jarr [.jobj [("id".data, .jnum 0),
    ("title".data, .jstr "t".data), ("description".data, .jstr "d".data)]])]

/-- A one-task payload whose record carries an empty `title`. -/
def fixPayloadTitleEmpty : Json :=
  .jobj [("tasks".data, .jarr [.jobj [("id".data, .jnum 1),
    ("title".data, .jstr []), ("description".data, .jstr "d".data)]])]

/-- A one-task payload whose record is missing `id` entirely. -/
def fixPayloadNoId : Json :=
  .jobj [("tasks".data, .jarr [.jobj [("title".data, .jstr "t".data),
    ("description".data, .jstr "d".data)]])]

/-- A response with a well-formed but empty `tasks` collection:
extraction succeeds, validation against 10 expected tasks fails. -/
def fixEmptyTasksRaw : JStr := "\x7b\"tasks\":[]\x7d".data

/-- The parsed form of `fixEmptyTasksRaw`. -/
def fixEmptyTasksJson : Json := .jobj [("tasks".data, .jarr [])]

/-- A response with no JSON at all. -/
def fixNoiseRaw : JStr := "no json here".data

/-- A response whose one-element `tasks` collection contains `null`:
the 80%-length check passes at `expectedCount = 1` and the field loop
of `validateTasks` then throws a `TypeError` in the source. -/
def fixNullTaskRaw : JStr := "\x7b\"tasks\":[null]\x7d".data

/-- The model always answering the empty-tasks response. -/
def fixEmptyRespond : Nat → JStr := fun _ => fixEmptyTasksRaw

/-- The scenario-B raw text: a one-task fenced JSON block surrounded by
noise. -/
def fixScenarioBRaw : JStr :=
  "noise \x60\x60\x60json\n\x7b\"tasks\":[\x7b\"id\":1,\"title\":\"t\",\"description\":\"d\"\x7d]\x7d\n\x60\x60\x60 trailing".data

/-- The one-task batch embedded in the scenario-B text. -/
def fixScenarioBJson : Json :=
  .jobj [("tasks".data,
    .jarr [.jobj [("id".data, .jnum 1), ("title".data, .jstr "t".data),
                  ("description".data, .jstr "d".data)]])]

/-- The raw text of the C4 counterexample: a batch that validates (id,
title, description all present and truthy) but carries `status: "done"`
and string dependencies. -/
def fixDoneTaskRaw : JStr :=
  "\x7b\"tasks\":[\x7b\"id\":1,\"title\":\"t\",\"description\":\"d\",\"status\":\"done\",\"dependencies\":[\"1\",\"2\"]\x7d]\x7d".data

/-- The task record inside `fixDoneTaskRaw`, as parsed. -/
def fixDoneTask : Json :=
  .jobj [("id".data, .jnum 1), ("title".data, .jstr "t".data),
         ("description".data, .jstr "d".data), ("status".data, .jstr "done".data),
         ("dependencies".data, .jarr [.jstr "1".data, .jstr "2".data])]

/-- The fields of the C4 witness record: a title and string
dependencies, no status, no id. -/
def fixWitnessFields : List (JStr × Json) :=
  [("title".data, .jstr "x".data),
   ("dependencies".data, .jarr [.jstr "1".data, .jstr "2".data])]

/-! ## Registry lemmas -/

/-- Head of a stable descending insertion: the inserted element wins
exactly when its priority is at least the current head's. -/
theorem head_insertByPriorityDesc (opts : SelectOptions) (a : Adapter) (l : List Adapter) :
    (insertByPriorityDesc opts a l).head? =
      some (match l.head? with
            | none => a
            | some b => if b.getPriority opts ≤ a.getPriority opts then a else b) := by
  cases l with
  | nil => rfl
  | cons b bs =>
    by_cases h : b.getPriority opts ≤ a.getPriority opts
    · simp [insertByPriorityDesc, h]
    · simp [insertByPriorityDesc, h]

/-- The head of the stable descending sort is the first-registered
adapter of maximal priority. -/
theorem head_sortByPriorityDesc (opts : SelectOptions) (l : List Adapter) :
    (sortByPriorityDesc opts l).head? = specSelect opts l := by
  induction l with
  | nil => rfl
  | cons a as ih =>
    simp only [sortByPriorityDesc, head_insertByPriorityDesc, specSelect, ← ih]
    cases h : (sortByPriorityDesc opts as).head? with
    | none => simp
    | some b =>
      simp only
      by_cases hle : b.getPriority opts ≤ a.getPriority opts
      · rw [if_pos hle, if_neg (by omega)]
      · rw [if_neg hle, if_pos (by omega)]

/-- Membership in a stable descending insertion. -/
theorem mem_insertByPriorityDesc (opts : SelectOptions) (a x : Adapter) (l : List Adapter) :
    x ∈ insertByPriorityDesc opts a l ↔ x = a ∨ x ∈ l := by
  induction l with
  | nil => simp [insertByPriorityDesc]
  | cons b bs ih =>
    simp only [insertByPriorityDesc]
    split
    · simp [or_comm, or_left_comm]
    · simp [ih]
      tauto

/-- Stable descending insertion preserves sortedness by priority. -/
theorem sorted_insertByPriorityDesc (opts : SelectOptions) (a : Adapter) (l : List Adapter)
    (h : List.Sorted (fun x y => y.getPriority opts ≤ x.getPriority opts) l) :
    List.Sorted (fun x y => y.getPriority opts ≤ x.getPriority opts)
      (insertByPriorityDesc opts a l) := by
  induction l with
  | nil => simp [insertByPriorityDesc]
  | cons b bs ih =>
    simp only [List.sorted_cons] at h
    simp only [insertByPriorityDesc]
    split
    · simp only [List.sorted_cons]
      refine ⟨fun y hy => ?_, h.1, h.2⟩
      cases hy with
      | head => omega
      | tail _ hy => exact le_trans (h.1 y hy) (by omega)
    · simp only [List.sorted_cons]
      refine ⟨fun y hy => ?_, ih h.2⟩
      rw [mem_insertByPriorityDesc] at hy
      cases hy with
      | inl he => subst he; omega
      | inr hy => exact h.1 y hy

/-- The sort of `selectBestModel` is sorted by priority descending. -/
theorem sorted_sortByPriorityDesc (opts : SelectOptions) (l : List Adapter) :
    List.Sorted (fun x y => y.getPriority opts ≤ x.getPriority opts)
      (sortByPriorityDesc opts l) := by
  induction l with
  | nil => simp [sortByPriorityDesc]
  | cons a as ih => exact sorted_insertByPriorityDesc opts a _ ih

/-- C1.  The claim states that `selectBestModel` never returns an
adapter whose type is in the exclusion set.  The code violates it: the
availability filter never consults `options._excludeTypes`, so with
`_excludeTypes = ['claude']` the registry still returns the Claude
adapter.  The source builds `_excludeTypes` and its comments say the
failed adapter is removed, but nothing reads the list — a slip in the
code, not in the claim. -/
theorem c1_excluded_adapter_still_returned :
    selectBestModel 1 [fixClaudeOk, fixDeepseekOk] "session".data fixExcludeClaude =
      .selected fixClaudeOk "anthropic-client".data ∧
    fixClaudeOk.type ∈ fixExcludeClaude.excludeTypes := by
  exact ⟨rfl, by simp [fixClaudeOk, fixExcludeClaude]⟩

/-- C2.  The claim states that after a failed `initialize` the registry
tries the next-highest-priority adapter and fails only when no adapter
is both available and initializable.  In the code the recursion re-runs
the identical selection (the exclusion list is ignored), so with an
available top adapter whose `initialize` keeps failing the recursion
never terminates for any fuel — the working lower-priority adapter is
never attempted, even though selecting it alone succeeds. -/
theorem c2_registry_recursion_diverges :
    (∀ fuel opts, selectBestModel fuel [fixClaudeBad, fixDeepseekOk] "session".data opts =
      .diverged) ∧
    selectBestModel 1 [fixDeepseekOk] "session".data ⟨false, false, []⟩ =
      .selected fixDeepseekOk "deepseek-client".data := by
  refine ⟨fun fuel => ?_, rfl⟩
  induction fuel with
  | zero => intro opts; rfl
  | succ n ih =>
    intro opts
    have havail : availableSorted [fixClaudeBad, fixDeepseekOk] "session".data opts =
        [fixClaudeBad, fixDeepseekOk] := by
      simp [availableSorted, fixClaudeBad, fixDeepseekOk, sortByPriorityDesc,
        insertByPriorityDesc]
    simp only [selectBestModel, havail]
    exact ih _

/-- C9.  Ranking determinism and the ranking order: the candidate list
`selectBestModel` builds is sorted by `getPriority` descending, its head
is exactly the first-registered adapter of maximal priority among the
available ones (`specSelect`), and when that adapter initializes
successfully it is the selection outcome.  The embedding is a pure
function of the registry, session and options, so two runs on equal
inputs trivially agree. -/
theorem c9_selection_deterministic_ranking (adapters : List Adapter)
    (session : Session) (opts : SelectOptions) :
    (availableSorted adapters session opts).head? =
      specSelect opts (adapters.filter (fun a => a.isAvailable session)) ∧
    List.Sorted (fun x y => y.getPriority opts ≤ x.getPriority opts)
      (availableSorted adapters session opts) ∧
    (∀ fuel a c, (availableSorted adapters session opts).head? = some a →
      a.init session = some c →
      selectBestModel (fuel + 1) adapters session opts = .selected a c) := by
  refine ⟨head_sortByPriorityDesc opts _, sorted_sortByPriorityDesc opts _, ?_⟩
  intro fuel a c h1 h2
  cases hl : availableSorted adapters session opts with
  | nil => rw [hl] at h1; simp at h1
  | cons x xs =>
    rw [hl] at h1
    simp only [List.head?] at h1
    cases h1
    simp [selectBestModel, hl, h2]

/-- Witness for C9 at a concrete registry: with Claude (priority 100)
and DeepSeek (priority 50) both available, the head candidate is Claude
and selection returns it with its client. -/
theorem c9_witness :
    (availableSorted [fixClaudeOk, fixDeepseekOk] "session".data fixExcludeClaude).head? =
      some fixClaudeOk ∧
    selectBestModel 1 [fixClaudeOk, fixDeepseekOk] "session".data fixExcludeClaude =
      .selected fixClaudeOk "anthropic-client".data := by
  have h := (c9_selection_deterministic_ranking [fixClaudeOk, fixDeepseekOk]
    "session".data fixExcludeClaude).2.2 0 fixClaudeOk "anthropic-client".data rfl rfl
  exact ⟨rfl, h⟩

/-! ## Adapter retry theorems -/

/-- The accumulated text is exactly the concatenation, in arrival
order, of the text fragments of the `content_block_delta` events. -/
theorem claude_foldl_join (chunks : List ClaudeChunk) : ∀ acc : JStr,
    chunks.foldl claudeStep acc =
      acc ++ (chunks.filterMap
        (fun c => if c.ctype = "content_block_delta".data then c.deltaText else none)).flatten := by
  induction chunks with
  | nil => intro acc; simp
  | cons c cs ih =>
    intro acc
    by_cases hc : c.ctype = "content_block_delta".data
    · cases ht : c.deltaText with
      | none => simp [claudeStep, hc, ht, ih]
      | some t =>
        cases t with
        | nil => simp [claudeStep, hc, ht, ih]
        | cons x xs => simp [claudeStep, hc, ht, ih, List.append_assoc]
    · simp [claudeStep, hc, ih]

/-- A retry count of at least 3 makes `callAttempts` issue exactly one
vendor request. -/
theorem callAttempts_high (fails : Nat → Bool) (rc : Nat) (h : 3 ≤ rc) :
    callAttempts fails rc = 1 := by
  rw [callAttempts]
  cases hf : fails rc
  · simp
  · simp [dif_neg (by omega : ¬ rc < 3)]

/-- Every `callModel` invocation issues at most four vendor requests
(the first attempt plus at most three retries). -/
theorem callAttempts_le (fails : Nat → Bool) (rc : Nat) :
    callAttempts fails rc ≤ 4 := by
  have h3 : callAttempts fails 3 = 1 := callAttempts_high fails 3 (by omega)
  have h2 : callAttempts fails 2 ≤ 2 := by
    rw [callAttempts]
    cases hf : fails 2
    · simp
    · simp [h3]
  have h1 : callAttempts fails 1 ≤ 3 := by
    rw [callAttempts]
    cases hf : fails 1
    · simp
    · simp
      omega
  match rc with
  | 0 =>
    rw [callAttempts]
    cases hf : fails 0
    · simp
    · simp
      omega
  | 1 => omega
  | 2 => omega
  | n + 3 => rw [callAttempts_high fails _ (by omega)]; omega

/-- C5.  With `retryCount >= 3` a failing vendor request is not retried
by either adapter: the classified error message propagates immediately;
and in general a `callModel` invocation issues at most four vendor
requests (at most three local retries beyond the first attempt) —
termination is inherent, the model is a total function. -/
theorem c5_no_retry_after_budget
    (aC : Nat → Except ClaudeError (List ClaudeChunk)) (rcC : Nat) (eC : ClaudeError)
    (hrcC : 3 ≤ rcC) (heC : aC rcC = .error eC)
    (aD : Nat → Except DeepSeekError (List DeepSeekChunk)) (rcD : Nat) (eD : DeepSeekError)
    (hrcD : 3 ≤ rcD) (heD : aD rcD = .error eD)
    (aA : Nat → Except ClaudeError (List ClaudeChunk)) (rcA : Nat) :
    claudeCallModel aC rcC = .error (claudeHandleError eC) ∧
    deepseekCallModel aD rcD = .error (deepseekHandleError eD) ∧
    callAttempts (claudeFails aA) rcA ≤ 4 ∧
    (3 ≤ rcA → callAttempts (claudeFails aA) rcA = 1) := by
  refine ⟨?_, ?_, callAttempts_le _ _, fun h => callAttempts_high _ _ h⟩
  · rw [claudeCallModel, heC]
    simp [dif_neg (by omega : ¬ rcC < 3)]
  · rw [deepseekCallModel, heD]
    simp [dif_neg (by omega : ¬ rcD < 3)]

/-- Witness for C5 at retry count 3: the failure propagates with the
classified messages and a single vendor request is issued. -/
theorem c5_witness :
    claudeCallModel fixAlwaysTimeout 3 = .error "Claude请求超时。请重试。".data ∧
    deepseekCallModel fixAlwaysNetworkErr 3 =
      .error "连接DeepSeek API时出现网络错误，请检查网络连接并重试。".data ∧
    callAttempts (claudeFails fixAlwaysTimeout) 3 = 1 := by
  have h := c5_no_retry_after_budget fixAlwaysTimeout 3 (.plain "request timeout".data)
    (by omega) rfl fixAlwaysNetworkErr 3 (.plain "network unreachable".data) (by omega) rfl
    fixAlwaysTimeout 3
  exact ⟨h.1, h.2.1, h.2.2.2 (by omega)⟩

/-- C8.  Scenario C: rate-limit failures on the first two attempts and
success on the third give a result whose `retryCount` is 2 and whose
`textContent` is the stream accumulation — the concatenation, in arrival
order, of the `content_block_delta` text fragments. -/
theorem c8_two_rate_limits_then_success
    (attempt : Nat → Except ClaudeError (List ClaudeChunk))
    (m0 m1 : JStr) (chunks : List ClaudeChunk)
    (h0 : attempt 0 = .error (.api "rate_limit_error".data m0))
    (h1 : attempt 1 = .error (.api "rate_limit_error".data m1))
    (h2 : attempt 2 = .ok chunks) :
    claudeCallModel attempt 0 = .ok ⟨accumulateClaudeChunks chunks, 2⟩ ∧
    accumulateClaudeChunks chunks =
      (chunks.filterMap
        (fun c => if c.ctype = "content_block_delta".data then c.deltaText else none)).flatten := by
  constructor
  · simp [claudeCallModel, h0, h1, h2]
  · simpa [accumulateClaudeChunks] using claude_foldl_join chunks []

/-- Witness for C8: the concrete oracle yields retry count 2 and the
concatenated fragments. -/
theorem c8_witness :
    claudeCallModel fixRateLimitedTwice 0 = .ok ⟨"hello world".data, 2⟩ := by
  have h := c8_two_rate_limits_then_success fixRateLimitedTwice "limited".data
    "limited again".data
    [⟨"content_block_delta".data, some "hello ".data⟩,
     ⟨"message_delta".data, none⟩,
     ⟨"content_block_delta".data, some "world".data⟩] rfl rfl rfl
  rw [h.1]
  rfl

/-! ## Assembler theorems -/

/-- The JavaScript double comparison threshold `0.8 * N` agrees with
the exact integer comparison used by the embedding. -/
theorem ratBound (l N : Nat) : ((0.8 : Rat) * N ≤ l) ↔ 4 * N ≤ 5 * l := by
  rw [show (0.8 : Rat) * N = (4 * N : Nat) / 5 by push_cast; ring]
  rw [div_le_iff₀ (by norm_num : (0 : Rat) < 5)]
  rw [show ((l : Rat) * 5) = ((5 * l : Nat) : Rat) by push_cast; ring]
  exact_mod_cast Iff.rfl

/-- Unfolding of the validation loop on the empty collection. -/
theorem validateLoop_nil : validateLoop [] = .ok true := rfl

/-- Unfolding of the validation loop on a `null` head record: the field
read throws. -/
theorem validateLoop_null_cons (ts : List Json) :
    validateLoop (.jnull :: ts) = .error "TypeError".data := rfl

/-- Unfolding of the validation loop on a non-null head record. -/
theorem validateLoop_cons_eq (t : Json) (ts : List Json) (hn : t ≠ .jnull) :
    validateLoop (t :: ts) =
      if jsTruthyO (jsGet t "id".data) && jsTruthyO (jsGet t "title".data) &&
         jsTruthyO (jsGet t "description".data) then validateLoop ts
      else .ok false := by
  cases t <;> first | exact absurd rfl hn | rfl

/-- The validation loop returns `true` exactly when every record has
the three required fields truthy (a `null` record throws instead, and
its missing fields also refute the right-hand side). -/
theorem validateLoop_ok_iff (ts : List Json) :
    validateLoop ts = .ok true ↔
      ∀ t ∈ ts, jsTruthyO (jsGet t "id".data) = true ∧
        jsTruthyO (jsGet t "title".data) = true ∧
        jsTruthyO (jsGet t "description".data) = true := by
  induction ts with
  | nil =>
    rw [validateLoop_nil]
    simp
  | cons t ts ih =>
    by_cases hn : t = .jnull
    · subst hn
      rw [validateLoop_null_cons]
      constructor
      · intro h; exact absurd h (by simp)
      · intro h
        obtain ⟨a, -, -⟩ := h .jnull (List.mem_cons_self _ _)
        simp [jsGet, jsTruthyO] at a
    · rw [validateLoop_cons_eq t ts hn]
      by_cases hc : (jsTruthyO (jsGet t "id".data) && jsTruthyO (jsGet t "title".data) &&
          jsTruthyO (jsGet t "description".data)) = true
      · rw [if_pos hc, ih]
        simp only [Bool.and_eq_true] at hc
        simp only [List.forall_mem_cons]
        constructor
        · intro h; exact ⟨⟨hc.1.1, hc.1.2, hc.2⟩, h⟩
        · intro h; exact h.2
      · rw [if_neg hc]
        constructor
        · intro h; exact absurd h (by simp)
        · intro h
          obtain ⟨a, b, c⟩ := h t (List.mem_cons_self t ts)
          simp [a, b, c] at hc

/-- C6.  `validateTasks` accepts exactly when the payload has a `tasks`
collection of length at least `0.8 * expectedCount` (boundary inclusive)
whose records all have truthy `id`, `title` and `description`. -/
theorem c6_validate_boundary (payload : Json) (N : Nat) :
    validateTasks payload N = .ok true ↔ specValidate payload N := by
  unfold validateTasks specValidate
  cases ht : jsTruthy payload
  · simp [ht]
  · cases hg : jsGet payload "tasks".data with
    | none => simp [ht, hg]
    | some v =>
      cases v with
      | jnull => simp [ht, hg]
      | jbool b => simp [ht, hg]
      | jnum q => simp [ht, hg]
      | jnan => simp [ht, hg]
      | jstr s => simp [ht, hg]
      | jobj fs => simp [ht, hg]
      | jarr ts =>
        simp only [ht, hg, Bool.not_true, Bool.false_eq_true, if_false, true_and,
          Option.some.injEq, Json.jarr.injEq, exists_eq_left']
        by_cases hlen : 5 * ts.length < 4 * N
        · rw [if_pos hlen]
          constructor
          · intro h; exact absurd h (by simp)
          · rintro ⟨h1, -⟩
            rw [ratBound] at h1
            omega
        · rw [if_neg hlen, validateLoop_ok_iff]
          constructor
          · intro h
            exact ⟨by rw [ratBound]; omega, h⟩
          · rintro ⟨-, h2⟩
            exact h2

/-- Witness for C6 at the boundary: an accepted concrete payload also
satisfies the specification side of the equivalence. -/
theorem c6_witness :
    specValidate (.jobj [("tasks".data,
      .jarr [.jobj [("id".data, .jnum 1), ("title".data, .jstr "t".data),
                    ("description".data, .jstr "d".data)]])]) 1 :=
  (c6_validate_boundary _ 1).mp rfl

/-- C10.  `validateTasks` checks the three required fields by JavaScript
truthiness, so a present-but-falsy field (`id: 0`, empty `title`) is
rejected exactly like a missing one, and every accepted batch contains
only records whose `id` is present and non-zero and whose `title` and
`description` are present and not the empty string. -/
theorem c10_falsy_fields_rejected (payload : Json) (N : Nat) (ts : List Json)
    (hacc : validateTasks payload N = .ok true)
    (hts : jsGet payload "tasks".data = some (.jarr ts)) :
    (∀ t ∈ ts,
      jsGet t "id".data ≠ none ∧ jsGet t "id".data ≠ some (.jnum 0) ∧
      jsGet t "title".data ≠ none ∧ jsGet t "title".data ≠ some (.jstr []) ∧
      jsGet t "description".data ≠ none ∧ jsGet t "description".data ≠ some (.jstr [])) ∧
    validateTasks fixPayloadIdZero 1 = .ok false ∧
    validateTasks fixPayloadTitleEmpty 1 = .ok false ∧
    validateTasks fixPayloadNoId 1 = .ok false := by
  refine ⟨?_, rfl, rfl, rfl⟩
  intro t htm
  unfold validateTasks at hacc
  cases ht : jsTruthy payload with
  | false => rw [ht] at hacc; simp at hacc
  | true =>
    rw [ht, hts] at hacc
    simp only [Bool.not_true, Bool.false_eq_true, if_false] at hacc
    by_cases hlen : 5 * ts.length < 4 * N
    · rw [if_pos hlen] at hacc; simp at hacc
    · rw [if_neg hlen, validateLoop_ok_iff] at hacc
      obtain ⟨h1, h2, h3⟩ := hacc t htm
      refine ⟨?_, ?_, ?_, ?_, ?_, ?_⟩ <;> intro heq
      · rw [heq] at h1; simp [jsTruthyO] at h1
      · rw [heq] at h1; simp [jsTruthyO, jsTruthy] at h1
      · rw [heq] at h2; simp [jsTruthyO] at h2
      · rw [heq] at h2; simp [jsTruthyO, jsTruthy] at h2
      · rw [heq] at h3; simp [jsTruthyO] at h3
      · rw [heq] at h3; simp [jsTruthyO, jsTruthy] at h3

/-- Witness for C10: the accepted payload's record has a non-zero id,
and the payloads with `id: 0`, an empty title, or a missing id are all
rejected. -/
theorem c10_witness :
    jsGet fixTaskGood "id".data ≠ some (.jnum 0) ∧
    validateTasks fixPayloadIdZero 1 = .ok false ∧
    validateTasks fixPayloadTitleEmpty 1 = .ok false := by
  have h := c10_falsy_fields_rejected fixPayloadGood 1 [fixTaskGood] rfl rfl
  exact ⟨(h.1 fixTaskGood (by simp)).2.1, h.2.1, h.2.2.1⟩

/-- C3.  Outcome protocol of `processModelResponse`: extraction failure
throws; a validation failure (the boolean `false` return of
`validateTasks`, as distinct from the `TypeError` a `null` record
raises, which propagates uncaught — last conjunct) retries with
`retryCount + 1` while the budget allows (`retryCount < 3`) and throws
the validation error once `retryCount >= 3`; consequently the
`callAIModel` orchestration loop over responses that always extract but
never validate (scenario D, e.g. fewer than 8 of 10 expected tasks on
every attempt) terminates with the validation failure once the budget
is exhausted, for every fuel bound. -/
theorem c3_retry_protocol (raw0 : JStr) (h0 : extractTasksJson raw0 = none)
    (raw1 : JStr) (t1 : Json) (rc1 N : Nat)
    (h1 : extractTasksJson raw1 = some t1) (hv : validateTasks t1 N = .ok false)
    (respond : Nat → JStr)
    (hresp : ∀ k, ∃ t, extractTasksJson (respond k) = some t ∧
      validateTasks t 10 = .ok false) :
    (∀ rc, processModelResponse ⟨raw0, rc⟩ N = .extractionError) ∧
    (rc1 < 3 → processModelResponse ⟨raw1, rc1⟩ N = .retry (rc1 + 1)) ∧
    (3 ≤ rc1 → processModelResponse ⟨raw1, rc1⟩ N = .validationError) ∧
    (∀ fuel, callAIModel (fuel + 4) respond 10 0 = some .validationFailed) ∧
    processModelResponse ⟨fixNullTaskRaw, 0⟩ 1 = .uncaught "TypeError".data := by
  have step : ∀ k, processModelResponse ⟨respond k, k⟩ 10 =
      if k < 3 then .retry (k + 1) else .validationError := by
    intro k
    obtain ⟨t, ht, hvt⟩ := hresp k
    by_cases hk : k < 3 <;> simp [processModelResponse, ht, hvt, hk]
  refine ⟨?_, ?_, ?_, ?_, rfl⟩
  · intro rc; simp [processModelResponse, h0]
  · intro h; simp [processModelResponse, h1, hv, h]
  · intro h; simp [processModelResponse, h1, hv, Nat.not_lt.mpr h]
  · intro fuel
    have s0 := step 0
    have s1 := step 1
    have s2 := step 2
    have s3 := step 3
    norm_num at s0 s1 s2 s3
    rw [show fuel + 4 = fuel + 3 + 1 from rfl, callAIModel, s0]
    show callAIModel (fuel + 2 + 1) respond 10 1 = some .validationFailed
    rw [callAIModel, s1]
    show callAIModel (fuel + 1 + 1) respond 10 2 = some .validationFailed
    rw [callAIModel, s2]
    show callAIModel (fuel + 0 + 1) respond 10 3 = some .validationFailed
    rw [callAIModel, s3]

/-- Witness for C3: concrete extraction failure, a concrete retry signal
at retry count 2, the concrete scenario-D run ending in the validation
failure, and the concrete `null`-record response whose `TypeError`
propagates instead of retrying. -/
theorem c3_witness :
    processModelResponse ⟨fixNoiseRaw, 0⟩ 10 = .extractionError ∧
    processModelResponse ⟨fixEmptyTasksRaw, 2⟩ 10 = .retry 3 ∧
    callAIModel 4 fixEmptyRespond 10 0 = some .validationFailed ∧
    processModelResponse ⟨fixNullTaskRaw, 0⟩ 1 = .uncaught "TypeError".data := by
  obtain ⟨p1, p2, p3, p4, p5⟩ := c3_retry_protocol fixNoiseRaw rfl fixEmptyTasksRaw
    fixEmptyTasksJson 2 10 rfl rfl fixEmptyRespond
    (fun k => ⟨fixEmptyTasksJson, rfl, rfl⟩)
  refine ⟨p1 0, p2 (by omega), ?_, p5⟩
  have := p4 0
  simpa using this

/-! ## Extraction theorems (C7) -/

/-- The candidate loop equals a declarative first-match over the trimmed
candidates. -/
theorem scanLoop_eq (ms : List JStr) :
    scanLoop ms = (ms.map trimJs).findSome? candAccept := by
  induction ms with
  | nil => rfl
  | cons m tail ih =>
    simp only [scanLoop, List.map_cons, List.findSome?_cons]
    cases hp : parseJson (trimJs m) with
    | none => simp [candAccept, hp, ih]
    | some v =>
      by_cases hT : hasTasksProp v
      · simp [candAccept, hp, hT]
      · simp [candAccept, hp, hT, ih]

/-- C7.  `extractTasksJson` equals the declarative specification: the
whole (trimmed) text followed by the scan candidates in textual order,
returning the first whose parsed form contains a `tasks` collection and
`null` exactly when none does; and on the scenario-B input the fenced
JSON is extracted and accepted as a one-task batch. -/
theorem c7_extract_first_candidate :
    (∀ text, extractTasksJson text = specExtractPayload text) ∧
    extractTasksJson fixScenarioBRaw = some fixScenarioBJson ∧
    processModelResponse ⟨fixScenarioBRaw, 0⟩ 1 = .accepted fixScenarioBJson := by
  refine ⟨?_, rfl, rfl⟩
  intro text
  unfold extractTasksJson specExtractPayload
  cases hp : parseJson (trimJs text) with
  | none => simp [List.findSome?_cons, candAccept, hp, scanLoop_eq]
  | some v =>
    by_cases hT : hasTasksProp v
    · simp [List.findSome?_cons, candAccept, hp, hT]
    · simp [List.findSome?_cons, candAccept, hp, hT, scanLoop_eq]

/-! ## Normalization theorems (C4) -/

/-- `find?` after an in-place field insertion, same key. -/
theorem find_insertField_same (k : JStr) (v : Json) (fs : List (JStr × Json)) :
    (insertField k v fs).find? (fun p => p.1 = k) = some (k, v) := by
  induction fs with
  | nil => simp [insertField]
  | cons p fs ih =>
    obtain ⟨k1, v1⟩ := p
    by_cases h : k1 = k
    · simp [insertField, h]
    · simp [insertField, h, ih]

/-- `find?` after an in-place field insertion, different key. -/
theorem find_insertField_other (k k' : JStr) (h : ¬ k' = k) (v : Json)
    (fs : List (JStr × Json)) :
    (insertField k v fs).find? (fun p => p.1 = k') = fs.find? (fun p => p.1 = k') := by
  have h2 : ¬ k = k' := fun hh => h hh.symm
  induction fs with
  | nil => simp [insertField, h2]
  | cons p fs ih =>
    obtain ⟨k1, v1⟩ := p
    by_cases hk : k1 = k
    · subst hk
      simp [insertField, h2]
    · by_cases hk' : k1 = k' <;> simp [insertField, hk, hk', ih, h]

/-- Property read after a field write, same key. -/
theorem jsGet_set_same (fs : List (JStr × Json)) (k : JStr) (v : Json) :
    jsGet (.jobj (insertField k v fs)) k = some v := by
  simp [jsGet, find_insertField_same]

/-- Property read after a field write, different key. -/
theorem jsGet_set_other (fs : List (JStr × Json)) (k k' : JStr) (v : Json)
    (h : ¬ k' = k) :
    jsGet (.jobj (insertField k v fs)) k' = jsGet (.jobj fs) k' := by
  simp [jsGet, find_insertField_other k k' h]

/-- Reads of keys other than `parentTaskId` pass through the final
conditional `parentTaskId` assignment. -/
theorem jsGet_applyParent (pt : Option Nat) (fs2 : List (JStr × Json)) (k : JStr)
    (h : ¬ k = "parentTaskId".data) :
    jsGet (applyParent pt (.jobj fs2)) k = jsGet (.jobj fs2) k := by
  cases pt with
  | none => rfl
  | some p =>
    by_cases hp : p = 0
    · simp [applyParent, hp]
    · simp [applyParent, hp, jobjSet, jsGet_set_other fs2 _ k _ h]

/-- Unfolding of `normalizeSubtask` on an object record. -/
theorem normalizeSubtask_jobj (startId : Nat) (pt : Option Nat) (idx : Nat)
    (fs : List (JStr × Json)) :
    normalizeSubtask startId pt idx (.jobj fs) =
      .ok (applyParent pt (jobjSet (jobjSet
        (if keepId (.jobj fs) ((startId + idx : Nat) : Rat) then Json.jobj fs
         else jobjSet (.jobj fs) "id".data (.jnum ((startId + idx : Nat) : Rat)))
        "dependencies".data (depsValue
        (if keepId (.jobj fs) ((startId + idx : Nat) : Rat) then Json.jobj fs
         else jobjSet (.jobj fs) "id".data (.jnum ((startId + idx : Nat) : Rat)))))
        "status".data (.jstr "pending".data))) := rfl

/-- C4 (amended).  The record normalization — performed by
`parseSubtasksFromText`, not by the assembler's accepted path — forces
`status` to `'pending'`, turns a missing `dependencies` field into `[]`,
and maps every dependency through the string-to-integer coercion, which
sends the numeric-looking strings `"1"`, `"2"` to the integers 1, 2. -/
theorem c4_subtask_normalization (fs : List (JStr × Json)) (startId : Nat)
    (pt : Option Nat) (idx : Nat) :
    ∃ t', normalizeSubtask startId pt idx (.jobj fs) = .ok t' ∧
      jsGet t' "status".data = some (.jstr "pending".data) ∧
      (jsGet (Json.jobj fs) "dependencies".data = none →
        jsGet t' "dependencies".data = some (.jarr [])) ∧
      (∀ ds, jsGet (Json.jobj fs) "dependencies".data = some (.jarr ds) →
        jsGet t' "dependencies".data = some (.jarr (ds.map coerceDep))) ∧
      coerceDep (.jstr "1".data) = .jnum 1 ∧ coerceDep (.jstr "2".data) = .jnum 2 := by
  have hds : ¬ ("dependencies".data : JStr) = "status".data := by decide
  have hsp : ¬ ("status".data : JStr) = "parentTaskId".data := by decide
  have hdp : ¬ ("dependencies".data : JStr) = "parentTaskId".data := by decide
  have hdi : ¬ ("dependencies".data : JStr) = "id".data := by decide
  -- the shared tail of both id-branches
  have main : ∀ fs1 : List (JStr × Json),
      jsGet (.jobj fs1) "dependencies".data = jsGet (.jobj fs) "dependencies".data →
      jsGet (applyParent pt (.jobj (insertField "status".data (.jstr "pending".data)
          (insertField "dependencies".data (depsValue (.jobj fs1)) fs1))))
          "status".data = some (.jstr "pending".data) ∧
      jsGet (applyParent pt (.jobj (insertField "status".data (.jstr "pending".data)
          (insertField "dependencies".data (depsValue (.jobj fs1)) fs1))))
          "dependencies".data = some (depsValue (.jobj fs1)) := by
    intro fs1 _
    constructor
    · rw [jsGet_applyParent pt _ _ hsp, jsGet_set_same]
    · rw [jsGet_applyParent pt _ _ hdp, jsGet_set_other _ _ _ _ hds, jsGet_set_same]
  by_cases hkeep : keepId (.jobj fs) ((startId + idx : Nat) : Rat)
  · refine ⟨applyParent pt (.jobj (insertField "status".data (.jstr "pending".data)
      (insertField "dependencies".data (depsValue (.jobj fs)) fs))), ?_, ?_, ?_, ?_, rfl, rfl⟩
    · rw [normalizeSubtask_jobj, if_pos hkeep]
      rfl
    · exact (main fs rfl).1
    · intro hnone
      rw [(main fs rfl).2]
      simp only [depsValue]
      rw [hnone]
    · intro ds hds'
      rw [(main fs rfl).2]
      simp only [depsValue]
      rw [hds']
  · have hdeps1 : jsGet (.jobj (insertField "id".data
        (.jnum ((startId + idx : Nat) : Rat)) fs)) "dependencies".data =
        jsGet (.jobj fs) "dependencies".data :=
      jsGet_set_other fs _ _ _ hdi
    refine ⟨applyParent pt (.jobj (insertField "status".data (.jstr "pending".data)
      (insertField "dependencies".data
        (depsValue (.jobj (insertField "id".data (.jnum ((startId + idx : Nat) : Rat)) fs)))
        (insertField "id".data (.jnum ((startId + idx : Nat) : Rat)) fs)))),
      ?_, ?_, ?_, ?_, rfl, rfl⟩
    · rw [normalizeSubtask_jobj, if_neg hkeep]
      rfl
    · exact (main _ hdeps1).1
    · intro hnone
      rw [(main _ hdeps1).2]
      simp only [depsValue]
      rw [hdeps1, hnone]
    · intro ds hds'
      rw [(main _ hdeps1).2]
      simp only [depsValue]
      rw [hdeps1, hds']

/-- Counterexample to C4 as stated: the assembler
(`processModelResponse`) accepts this batch and returns it verbatim —
the record's `status` is still `"done"` and its dependencies are still
the strings `"1"`, `"2"`; no normalization happens on the accepted
path. -/
theorem c4_counterexample :
    processModelResponse ⟨fixDoneTaskRaw, 0⟩ 1 =
      .accepted (.jobj [("tasks".data, .jarr [fixDoneTask])]) ∧
    jsGet fixDoneTask "status".data = some (.jstr "done".data) ∧
    jsGet fixDoneTask "status".data ≠ some (.jstr "pending".data) ∧
    jsGet fixDoneTask "dependencies".data =
      some (.jarr [.jstr "1".data, .jstr "2".data]) := by
  refine ⟨rfl, rfl, ?_, rfl⟩
  intro h
  simp [fixDoneTask, jsGet] at h

/-- Witness for the amended C4 at a concrete record: normalization
yields `status: "pending"` and integer dependencies `[1, 2]`. -/
theorem c4_witness :
    ∃ t', normalizeSubtask 1 none 0 (.jobj fixWitnessFields) = .ok t' ∧
      jsGet t' "status".data = some (.jstr "pending".data) ∧
      jsGet t' "dependencies".data = some (.jarr [.jnum 1, .jnum 2]) := by
  obtain ⟨t', h1, h2, h3, h4, h5, h6⟩ := c4_subtask_normalization fixWitnessFields 1 none 0
  refine ⟨t', h1, h2, ?_⟩
  have := h4 [.jstr "1".data, .jstr "2".data] rfl
  rw [show ([Json.jstr "1".data, Json.jstr "2".data].map coerceDep) =
    [Json.jnum 1, Json.jnum 2] from rfl] at this
  exact this
